import Mathlib

/-!
Shallow embedding of the booking consistency core of the gym class-reservation
system (gym_reservas): data model from models.py, service operations from
services.py.  Dates are modelled as integer day numbers and instants as integer
minutes; a day has 1440 minutes and the date of an instant is its floor
division by 1440.
-/

namespace GymReservas

/-- Lifecycle states of a class session (Clase.ESTADO_CLASE). -/
inductive EstadoClase
  | programada
  | en_curso
  | finalizada
  | cancelada
deriving DecidableEq, Repr

/-- Lifecycle states of a reservation (Reserva.ESTADOS_RESERVA). -/
inductive EstadoReserva
  | pendiente
  | confirmada
  | cancelada
  | no_show
deriving DecidableEq, Repr

/-- Membership states of a member profile (Socio.ESTADO_MEMBRESIA). -/
inductive EstadoMembresia
  | activa
  | vencida
  | suspendida
deriving DecidableEq, Repr

/-- Member profile (models.Socio): membership status and end date (a day number). -/
structure SocioPerfil where
  estadoMembresia : EstadoMembresia
  fechaFinMembresia : Int
deriving DecidableEq, Repr

/-- Authentication user (django User) together with its optional Socio profile;
accessing `socio.socio` on a user without profile raises, modelled by `Option`. -/
structure Usuario where
  id : Nat
  dateJoined : Int
  perfil : Option SocioPerfil
deriving DecidableEq, Repr

/-- Class session (models.Clase): the fields the booking core reads. -/
structure Clase where
  id : Nat
  capacidad : Nat
  fecha : Int
  horaInicio : Int
  estado : EstadoClase
deriving DecidableEq, Repr

/-- Reservation row (models.Reserva). -/
structure Reserva where
  id : Nat
  claseId : Nat
  socioId : Nat
  estado : EstadoReserva
  fechaReserva : Int
  fechaCancelacion : Option Int
  prioridad : Int
deriving DecidableEq, Repr

/-- Waitlist row (models.ListaEspera). -/
structure EntradaListaEspera where
  claseId : Nat
  socioId : Nat
  fechaRegistro : Int
  prioridad : Int
  notificado : Bool
deriving DecidableEq, Repr

/-- The durable store: users, sessions, reservations, waitlist rows, and the
next auto-assigned reservation primary key. -/
structure Store where
  usuarios : List Usuario
  clases : List Clase
  reservas : List Reserva
  listaEspera : List EntradaListaEspera
  nextReservaId : Nat
deriving DecidableEq, Repr

/-- Day number of an instant given in minutes (timezone.now().date()). -/
def hoy (now : Int) : Int := Int.fdiv now 1440

/-- Start instant of a class session in minutes
(timezone.datetime.combine(self.fecha, self.hora_inicio)). -/
def claseDatetime (c : Clase) : Int := c.fecha * 1440 + c.horaInicio

/-- Clase.objects.get(pk=...) / filter by primary key. -/
def findClase (st : Store) (cid : Nat) : Option Clase :=
  st.clases.find? (fun c => c.id == cid)

/-- User lookup by primary key. -/
def findUsuario (st : Store) (sid : Nat) : Option Usuario :=
  st.usuarios.find? (fun u => u.id == sid)

/-- Reserva.objects.filter(socio=socio).get(pk=reserva_id)
(ReservaRepository.get_reserva_by_id). -/
def lookupReserva (st : Store) (rid sid : Nat) : Option Reserva :=
  st.reservas.find? (fun r => r.id == rid && r.socioId == sid)

/-- Count of confirmed reservations of a session
(self.reserva_set.filter(estado='confirmada').count()). -/
def reservasConfirmadasCount (st : Store) (cid : Nat) : Nat :=
  (st.reservas.filter
    (fun r => r.claseId == cid && r.estado == EstadoReserva.confirmada)).length

/-- Clase.get_cupos_disponibles: max(0, capacidad - confirmed count). -/
def getCuposDisponibles (st : Store) (c : Clase) : Int :=
  max 0 ((c.capacidad : Int) - (reservasConfirmadasCount st c.id : Int))

/-- Clase.esta_llena: get_cupos_disponibles() <= 0. -/
def estaLlena (st : Store) (c : Clase) : Bool :=
  decide (getCuposDisponibles st c ≤ 0)

/-- Clase.puede_reservarse: scheduled, in the future, not full. -/
def puedeReservarse (st : Store) (c : Clase) (now : Int) : Bool :=
  c.estado == EstadoClase.programada
    && decide (claseDatetime c > now)
    && !(estaLlena st c)

/-- Socio.membresia_vigente: active status and end date not before today. -/
def membresiaVigente (p : SocioPerfil) (today : Int) : Bool :=
  p.estadoMembresia == EstadoMembresia.activa && decide (p.fechaFinMembresia ≥ today)

/-- Reserva.puede_cancelarse: confirmed and now at most two hours (120 minutes)
before the session start. -/
def puedeCancelarse (r : Reserva) (c : Clase) (now : Int) : Bool :=
  r.estado == EstadoReserva.confirmada && decide (now ≤ claseDatetime c - 120)

/-- Count of confirmed reservations of a member, any date
(Reserva.objects.filter(socio=socio, estado='confirmada').count()). -/
def reservasConfirmadasSocio (st : Store) (sid : Nat) : Nat :=
  (st.reservas.filter
    (fun r => r.socioId == sid && r.estado == EstadoReserva.confirmada)).length

/-- Reserva.save's priority formula: days since the member joined plus ten per
prior confirmed reservation. -/
def computePrioridad (st : Store) (u : Usuario) (now : Int) : Int :=
  (hoy now - u.dateJoined) + (reservasConfirmadasSocio st u.id : Int) * 10

/-- Count of a member's confirmed reservations for sessions dated today or
later (LimiteReservasStrategy's query). -/
def reservasActivasCount (st : Store) (sid : Nat) (today : Int) : Nat :=
  (st.reservas.filter
    (fun r => r.socioId == sid && r.estado == EstadoReserva.confirmada &&
      (match findClase st r.claseId with
       | some c => decide (c.fecha ≥ today)
       | none => false))).length

/-- Existence of a confirmed reservation for the exact (member, session) pair
(ReservaDuplicadaStrategy's query). -/
def tieneReservaConfirmada (st : Store) (sid cid : Nat) : Bool :=
  st.reservas.any (fun r =>
    r.socioId == sid && r.claseId == cid && r.estado == EstadoReserva.confirmada)

/-- ClaseDisponibleStrategy.validate. -/
def claseDisponibleValidate (st : Store) (_u : Usuario) (c : Clase) (now : Int) :
    Bool × String :=
  if puedeReservarse st c now then (true, "")
  else (false, "Esta clase no está disponible para reservas")

/-- MembresiaValidationStrategy.validate. -/
def membresiaValidate (_st : Store) (u : Usuario) (_c : Clase) (now : Int) :
    Bool × String :=
  match u.perfil with
  | none => (false, "No tienes un perfil de socio asociado")
  | some p =>
    if membresiaVigente p (hoy now) then (true, "")
    else (false, "Tu membresía no está vigente")

/-- CuposDisponiblesStrategy.validate. -/
def cuposDisponiblesValidate (st : Store) (_u : Usuario) (c : Clase) (_now : Int) :
    Bool × String :=
  if getCuposDisponibles st c ≤ 0 then (false, "No hay cupos disponibles")
  else (true, "")

/-- LimiteReservasStrategy.validate. -/
def limiteReservasValidate (st : Store) (u : Usuario) (_c : Clase) (now : Int) :
    Bool × String :=
  if reservasActivasCount st u.id (hoy now) ≥ 3 then
    (false, "Has alcanzado el límite de 3 reservas activas")
  else (true, "")

/-- ReservaDuplicadaStrategy.validate. -/
def reservaDuplicadaValidate (st : Store) (u : Usuario) (c : Clase) (_now : Int) :
    Bool × String :=
  if tieneReservaConfirmada st u.id c.id then
    (false, "Ya tienes una reserva para esta clase")
  else (true, "")

/-- The fixed ordered strategy list of ReservaValidator.__init__. -/
def strategies : List (Store → Usuario → Clase → Int → Bool × String) :=
  [claseDisponibleValidate, membresiaValidate, cuposDisponiblesValidate,
   limiteReservasValidate, reservaDuplicadaValidate]

/-- ReservaValidator.validate_all: run every strategy, collect the failure
messages in order, valid iff none failed. -/
def validateAll (st : Store) (u : Usuario) (c : Clase) (now : Int) :
    Bool × List String :=
  let errores := strategies.foldl
    (fun errs s =>
      let vm := s st u c now
      if vm.1 then errs else errs ++ [vm.2]) []
  (errores.length == 0, errores)

/-- INSERT of a reservation row: enforces the unique_together
(socio, clase, estado) constraint and assigns the next primary key. -/
def insertReserva (st : Store) (r : Reserva) : Except String Store :=
  if st.reservas.any (fun x =>
      x.socioId == r.socioId && x.claseId == r.claseId && x.estado == r.estado)
  then Except.error "UNIQUE constraint failed: socio, clase, estado"
  else Except.ok { st with
    reservas := st.reservas ++ [r],
    nextReservaId := st.nextReservaId + 1 }

/-- UPDATE of a reservation row by primary key: enforces the unique_together
(socio, clase, estado) constraint against the other rows. -/
def saveReservaUpdate (st : Store) (r : Reserva) : Except String Store :=
  if st.reservas.any (fun x =>
      x.id != r.id && x.socioId == r.socioId && x.claseId == r.claseId
        && x.estado == r.estado)
  then Except.error "UNIQUE constraint failed: socio, clase, estado"
  else Except.ok { st with
    reservas := st.reservas.map (fun x => if x.id == r.id then r else x) }

/-- Choice between two waitlist rows as ordered by
order_by('-prioridad', 'fecha_registro'): the later row wins only when it is
strictly better (higher priority, or equal priority and strictly earlier
registration). -/
def mejorEntrada (a b : EntradaListaEspera) : EntradaListaEspera :=
  if b.prioridad > a.prioridad
      || (b.prioridad == a.prioridad && b.fechaRegistro < a.fechaRegistro)
  then b else a

/-- Fold step accumulating the best waitlist row seen so far. -/
def elegirMejor : Option EntradaListaEspera → EntradaListaEspera →
    Option EntradaListaEspera
  | none, e => some e
  | some a, e => some (mejorEntrada a e)

/-- ListaEspera.objects.filter(clase=clase, notificado=False)
.order_by('-prioridad', 'fecha_registro').first(). -/
def selectSiguiente (l : List EntradaListaEspera) (cid : Nat) :
    Option EntradaListaEspera :=
  (l.filter (fun e => e.claseId == cid && !e.notificado)).foldl elegirMejor none

/-- The confirmed reservation row built by promotion
(Reserva.objects.create in _procesar_lista_espera): priority is the waitlist
row's value unless that value is zero, in which case Reserva.save recomputes
the formula. -/
def promocionRow (st : Store) (e : EntradaListaEspera) (cid : Nat) (now : Int) :
    Reserva :=
  { id := st.nextReservaId, claseId := cid, socioId := e.socioId,
    estado := EstadoReserva.confirmada, fechaReserva := now,
    fechaCancelacion := none,
    prioridad :=
      if e.prioridad == 0 then
        (match findUsuario st e.socioId with
         | some u => computePrioridad st u now
         | none => 0)
      else e.prioridad }

/-- Marking the selected waitlist row notified (siguiente.notificado = True;
the row is addressed by its unique (clase, socio) pair). -/
def markNotificado (e : EntradaListaEspera) (x : EntradaListaEspera) :
    EntradaListaEspera :=
  if x.claseId == e.claseId && x.socioId == e.socioId then
    { x with notificado := true }
  else x

/-- ReservaService._procesar_lista_espera: no-op when the session has no free
seat or no pending waitlist row; otherwise creates a confirmed reservation for
the selected member and marks the row notified, swallowing any creation
failure. -/
def procesarListaEspera (st : Store) (c : Clase) (now : Int) : Store :=
  if getCuposDisponibles st c ≤ 0 then st
  else
    match selectSiguiente st.listaEspera c.id with
    | none => st
    | some e =>
      match insertReserva st (promocionRow st e c.id now) with
      | Except.error _ => st
      | Except.ok st2 =>
        { st2 with listaEspera := st2.listaEspera.map (markNotificado e) }

/-- Result of ReservaService.crear_reserva. -/
inductive CrearResult
  | ok (r : Reserva)
  | err (msg : String)
deriving DecidableEq, Repr

/-- ReservaService.crear_reserva: resolve the session, run the validator, re-
check seats, then persist a confirmed reservation with server-computed
priority. -/
def crearReserva (st : Store) (sid cid : Nat) (now : Int) : Store × CrearResult :=
  match findUsuario st sid with
  | none => (st, CrearResult.err "Usuario no encontrado")
  | some u =>
    match findClase st cid with
    | none => (st, CrearResult.err "Clase no encontrada")
    | some c =>
      let ve := validateAll st u c now
      if !ve.1 then (st, CrearResult.err (String.intercalate " | " ve.2))
      else if getCuposDisponibles st c ≤ 0 then
        (st, CrearResult.err "No hay cupos disponibles (verificación transaccional)")
      else
        let r : Reserva :=
          { id := st.nextReservaId, claseId := c.id, socioId := u.id,
            estado := EstadoReserva.confirmada, fechaReserva := now,
            fechaCancelacion := none, prioridad := computePrioridad st u now }
        match insertReserva st r with
        | Except.error e => (st, CrearResult.err ("Error al crear reserva: " ++ e))
        | Except.ok st2 => (st2, CrearResult.ok r)

/-- Result of ReservaService.cancelar_reserva: a returned business failure is
`err`, an uncaught exception (the atomic transaction rolls back) is `raised`. -/
inductive CancelResult
  | ok
  | err (msg : String)
  | raised (msg : String)
deriving DecidableEq, Repr

/-- The in-memory state of the reservation at the cancelling save: status
cancelled, cancellation instant stamped, and Reserva.save recomputing the
priority when the stored value is zero. -/
def canceladaRow (st : Store) (r : Reserva) (sid : Nat) (now : Int) : Reserva :=
  { r with estado := EstadoReserva.cancelada,
           fechaCancelacion := some now,
           prioridad :=
             if r.prioridad == 0 then
               (match findUsuario st sid with
                | some u => computePrioridad st u now
                | none => 0)
             else r.prioridad }

/-- ReservaService.cancelar_reserva: look up the member's reservation, require
confirmed status and the two-hour window, persist the cancellation, then run
best-effort waitlist promotion. -/
def cancelarReserva (st : Store) (rid sid : Nat) (now : Int) :
    Store × CancelResult :=
  match lookupReserva st rid sid with
  | none => (st, CancelResult.err "Reserva no encontrada")
  | some r =>
    if r.estado != EstadoReserva.confirmada then
      (st, CancelResult.err "Esta reserva no puede cancelarse")
    else
      match findClase st r.claseId with
      | none => (st, CancelResult.raised "Clase inexistente")
      | some c =>
        if !(puedeCancelarse r c now) then
          (st, CancelResult.err "No puedes cancelar con menos de 2 horas de anticipación")
        else
          match saveReservaUpdate st (canceladaRow st r sid now) with
          | Except.error m => (st, CancelResult.raised m)
          | Except.ok st2 => (procesarListaEspera st2 c now, CancelResult.ok)

/-- Result of ListaEsperaService.agregar_a_lista_espera. -/
inductive AgregarResult
  | ok (e : EntradaListaEspera)
  | err (msg : String)
deriving DecidableEq, Repr

/-- ListaEsperaService.agregar_a_lista_espera: the session must be full, the
member must not already be queued; priority uses the shared formula. -/
def agregarAListaEspera (st : Store) (sid cid : Nat) (now : Int) :
    Store × AgregarResult :=
  match findUsuario st sid with
  | none => (st, AgregarResult.err "Usuario no encontrado")
  | some u =>
    match findClase st cid with
    | none => (st, AgregarResult.err "Clase no encontrada")
    | some c =>
      if !(estaLlena st c) then
        (st, AgregarResult.err "La clase tiene cupos disponibles")
      else if st.listaEspera.any (fun e => e.socioId == sid && e.claseId == cid) then
        (st, AgregarResult.err "Ya estás en la lista de espera")
      else
        let p := (hoy now - u.dateJoined) + (reservasConfirmadasSocio st sid : Int) * 10
        let e : EntradaListaEspera :=
          { claseId := cid, socioId := sid, fechaRegistro := now,
            prioridad := p, notificado := false }
        ({ st with listaEspera := st.listaEspera ++ [e] }, AgregarResult.ok e)

/-- Operations of the booking core, referencing entities by primary key. -/
inductive Op
  | crear (sid cid : Nat) (now : Int)
  | cancelar (rid sid : Nat) (now : Int)
  | agregar (sid cid : Nat) (now : Int)
  | promover (cid : Nat) (now : Int)
deriving DecidableEq, Repr

/-- State transition of one operation (the store component of each service). -/
def applyOp (st : Store) (op : Op) : Store :=
  match op with
  | Op.crear sid cid now => (crearReserva st sid cid now).1
  | Op.cancelar rid sid now => (cancelarReserva st rid sid now).1
  | Op.agregar sid cid now => (agregarAListaEspera st sid cid now).1
  | Op.promover cid now =>
    match findClase st cid with
    | some c => procesarListaEspera st c now
    | none => st

/-- Run a sequence of operations. -/
def runOps (st : Store) (ops : List Op) : Store := ops.foldl applyOp st

end GymReservas

namespace GymReservas

/-- Session capacity invariant: no session ever has more confirmed
reservations than its capacity. -/
def invCapacidad (st : Store) : Prop :=
  ∀ c ∈ st.clases, reservasConfirmadasCount st c.id ≤ c.capacidad

/-- At most one confirmed reservation per (member, session) pair. -/
def invDup (st : Store) : Prop :=
  ∀ r1 ∈ st.reservas, ∀ r2 ∈ st.reservas,
    r1.estado = EstadoReserva.confirmada → r2.estado = EstadoReserva.confirmada →
    r1.socioId = r2.socioId → r1.claseId = r2.claseId → r1 = r2

/-- Uniqueness of the (member, session, status) triple across reservation rows
(the unique_together constraint of Reserva.Meta). -/
def invUnique (st : Store) : Prop :=
  ∀ r1 ∈ st.reservas, ∀ r2 ∈ st.reservas,
    r1.socioId = r2.socioId → r1.claseId = r2.claseId → r1.estado = r2.estado →
    r1 = r2

/-- Per-member cap: no member has more than three confirmed reservations for
sessions dated today or later. -/
def invLimite (st : Store) (now : Int) : Prop :=
  ∀ u ∈ st.usuarios, reservasActivasCount st u.id (hoy now) ≤ 3

/-- Distinct session primary keys. -/
def clasesNodupP (st : Store) : Prop :=
  (st.clases.map (fun c => c.id)).Nodup

instance (st : Store) : Decidable (invCapacidad st) := by
  unfold invCapacidad
  infer_instance

instance (st : Store) : Decidable (invDup st) := by
  unfold invDup
  infer_instance

instance (st : Store) : Decidable (invUnique st) := by
  unfold invUnique
  infer_instance

instance (st : Store) (now : Int) : Decidable (invLimite st now) := by
  unfold invLimite
  infer_instance

instance (st : Store) : Decidable (clasesNodupP st) := by
  unfold clasesNodupP
  infer_instance

/-- Concrete fixture: a valid membership profile. -/
def perfilOK : SocioPerfil := ⟨EstadoMembresia.activa, 1000⟩

/-- Concrete fixture: member with primary key 1. -/
def uM : Usuario := ⟨1, 0, some perfilOK⟩

/-- Concrete fixture: member with primary key 2. -/
def uB : Usuario := ⟨2, 0, some perfilOK⟩

/-- Concrete fixture: a scheduled session on day 101 at minute 600. -/
def mkClase (i cap : Nat) : Clase := ⟨i, cap, 101, 600, EstadoClase.programada⟩

/-- Concrete fixture sessions. -/
def cl1 : Clase := mkClase 1 5

/-- Concrete fixture session 2. -/
def cl2 : Clase := mkClase 2 5

/-- Concrete fixture session 3. -/
def cl3 : Clase := mkClase 3 5

/-- Concrete fixture session 4 with capacity one. -/
def cl4 : Clase := mkClase 4 1

/-- Concrete fixture instant: start of day 100. -/
def now0 : Int := 144000

/-- Concrete fixture store: two members, four sessions, no reservations. -/
def st0 : Store := ⟨[uM, uB], [cl1, cl2, cl3, cl4], [], [], 0⟩

/-- Concrete operation sequence: member 1 books three sessions, member 2 fills
the capacity-one session 4, member 1 joins its waitlist, member 2 cancels. -/
def opsC3 : List Op :=
  [Op.crear 1 1 now0, Op.crear 1 2 now0, Op.crear 1 3 now0,
   Op.crear 2 4 now0, Op.agregar 1 4 now0, Op.cancelar 3 2 now0]

/-- Concrete operation sequence: member 1 books session 1, cancels, books it
again. -/
def opsRebook : List Op :=
  [Op.crear 1 1 now0, Op.cancelar 0 1 now0, Op.crear 1 1 now0]

/-- Concrete operation sequence: member 1 fills the capacity-one session 4 and
member 2 joins its waitlist. -/
def opsC9 : List Op := [Op.crear 1 4 now0, Op.agregar 2 4 now0]

/-- Concrete fixture: a confirmed reservation of member 1 for session 1. -/
def rC6 : Reserva := ⟨0, 1, 1, EstadoReserva.confirmada, now0, none, 5⟩

/-- Concrete fixture: a pending waitlist row of member 1 for session 1. -/
def eC6 : EntradaListaEspera := ⟨1, 1, now0, 7, false⟩

/-- Concrete fixture store where the next waitlist candidate of session 1
already holds a confirmed reservation for it. -/
def stC6 : Store := ⟨[uM, uB], [cl1], [rC6], [eC6], 1⟩

/-- Concrete fixture store where session 1 has free seats and member 1 is a
pending waitlist candidate with no reservation yet. -/
def stP : Store := ⟨[uM, uB], [cl1], [], [eC6], 0⟩

/-- Concrete fixture: a pending waitlist row of member 2 for session 4. -/
def eB4 : EntradaListaEspera := ⟨4, 2, now0, 50, false⟩

/-- Concrete fixture store: capacity-one session 4 free, member 2 waiting. -/
def st9 : Store := ⟨[uM, uB], [cl1, cl2, cl3, cl4], [], [eB4], 0⟩

/-- Concrete fixture: the store after member 1 booked session 1, cancelled,
and booked it again; it holds a cancelled row and a confirmed row. -/
def stRebook : Store := runOps st0 opsRebook

/-- Concrete fixture: the re-booked confirmed reservation inside stRebook. -/
def rRebook : Reserva := ⟨1, 1, 1, EstadoReserva.confirmada, now0, none, 100⟩

/-- Concrete fixture: the reservation created by booking session 1 on st0. -/
def rW : Reserva := ⟨0, 1, 1, EstadoReserva.confirmada, now0, none, 100⟩

/-- Concrete fixture: st0 after member 1 booked session 1. -/
def stW : Store := ⟨[uM, uB], [cl1, cl2, cl3, cl4], [rW], [], 1⟩

/-- Concrete fixture: the reservation created by booking session 4 on st0. -/
def rW4 : Reserva := ⟨0, 4, 1, EstadoReserva.confirmada, now0, none, 100⟩

/-- Concrete fixture: st0 after member 1 booked session 4. -/
def stW4 : Store := ⟨[uM, uB], [cl1, cl2, cl3, cl4], [rW4], [], 1⟩

end GymReservas

namespace GymReservas

theorem map_id_of_mem {α : Type} (f : α → α) :
    ∀ l : List α, (∀ x ∈ l, f x = x) → l.map f = l
  | [], _ => rfl
  | x :: xs, h => by
    simp only [List.map_cons]
    rw [h x (List.mem_cons_self x xs),
      map_id_of_mem f xs (fun y hy => h y (List.mem_cons_of_mem x hy))]

theorem length_filter_map_le {α : Type} (f : α → α) (p : α → Bool)
    (h : ∀ x, p (f x) = true → p x = true) :
    ∀ l : List α, ((l.map f).filter p).length ≤ (l.filter p).length
  | [] => Nat.le_refl _
  | x :: xs => by
    simp only [List.map_cons, List.filter_cons]
    cases hpf : p (f x) with
    | true =>
      rw [h x hpf]
      simpa using Nat.succ_le_succ (length_filter_map_le f p h xs)
    | false =>
      cases hp : p x with
      | true =>
        simp only [List.length_cons]
        exact Nat.le_succ_of_le (length_filter_map_le f p h xs)
      | false => exact length_filter_map_le f p h xs

theorem insertReserva_ok {st st2 : Store} {r : Reserva}
    (h : insertReserva st r = Except.ok st2) :
    st2.usuarios = st.usuarios ∧ st2.clases = st.clases ∧
    st2.reservas = st.reservas ++ [r] ∧ st2.listaEspera = st.listaEspera ∧
    st2.nextReservaId = st.nextReservaId + 1 ∧
    ∀ x ∈ st.reservas,
      ¬(x.socioId = r.socioId ∧ x.claseId = r.claseId ∧ x.estado = r.estado) := by
  unfold insertReserva at h
  split at h
  · exact absurd h (by simp)
  · rename_i hany
    cases h
    refine ⟨rfl, rfl, rfl, rfl, rfl, ?_⟩
    rintro x hx ⟨h1, h2, h3⟩
    exact hany (List.any_eq_true.2 ⟨x, hx, by rw [h1, h2, h3]; simp⟩)

theorem insertReserva_ok_of {st : Store} {r : Reserva}
    (h : ∀ x ∈ st.reservas,
      ¬(x.socioId = r.socioId ∧ x.claseId = r.claseId ∧ x.estado = r.estado)) :
    insertReserva st r = Except.ok { st with
      reservas := st.reservas ++ [r],
      nextReservaId := st.nextReservaId + 1 } := by
  unfold insertReserva
  rw [if_neg]
  intro hany
  obtain ⟨x, hx, hp⟩ := List.any_eq_true.1 hany
  simp only [Bool.and_eq_true, beq_iff_eq] at hp
  exact h x hx ⟨hp.1.1, hp.1.2, hp.2⟩

theorem saveReservaUpdate_ok {st st2 : Store} {r : Reserva}
    (h : saveReservaUpdate st r = Except.ok st2) :
    st2.usuarios = st.usuarios ∧ st2.clases = st.clases ∧
    st2.reservas = st.reservas.map (fun x => if x.id == r.id then r else x) ∧
    st2.listaEspera = st.listaEspera ∧
    st2.nextReservaId = st.nextReservaId ∧
    ∀ x ∈ st.reservas, x.id ≠ r.id →
      ¬(x.socioId = r.socioId ∧ x.claseId = r.claseId ∧ x.estado = r.estado) := by
  unfold saveReservaUpdate at h
  split at h
  · exact absurd h (by simp)
  · rename_i hany
    cases h
    refine ⟨rfl, rfl, rfl, rfl, rfl, ?_⟩
    rintro x hx hid ⟨h1, h2, h3⟩
    refine hany (List.any_eq_true.2 ⟨x, hx, ?_⟩)
    rw [h1, h2, h3]
    simp [bne_iff_ne, hid]

theorem saveReservaUpdate_ok_of {st : Store} {r : Reserva}
    (h : ∀ x ∈ st.reservas, x.id ≠ r.id →
      ¬(x.socioId = r.socioId ∧ x.claseId = r.claseId ∧ x.estado = r.estado)) :
    saveReservaUpdate st r = Except.ok { st with
      reservas := st.reservas.map (fun x => if x.id == r.id then r else x) } := by
  unfold saveReservaUpdate
  rw [if_neg]
  intro hany
  obtain ⟨x, hx, hp⟩ := List.any_eq_true.1 hany
  simp only [Bool.and_eq_true, beq_iff_eq, bne_iff_ne] at hp
  exact h x hx hp.1.1.1 ⟨hp.1.1.2, hp.1.2, hp.2⟩

theorem saveReservaUpdate_error_of {st : Store} {r : Reserva} (x : Reserva)
    (hx : x ∈ st.reservas) (hid : x.id ≠ r.id) (h1 : x.socioId = r.socioId)
    (h2 : x.claseId = r.claseId) (h3 : x.estado = r.estado) :
    saveReservaUpdate st r =
      Except.error "UNIQUE constraint failed: socio, clase, estado" := by
  unfold saveReservaUpdate
  rw [if_pos]
  refine List.any_eq_true.2 ⟨x, hx, ?_⟩
  rw [h1, h2, h3]
  simp [bne_iff_ne, hid]

end GymReservas

namespace GymReservas

theorem findClase_congr {st1 st2 : Store} (h : st2.clases = st1.clases) :
    ∀ cid, findClase st2 cid = findClase st1 cid := by
  intro cid
  unfold findClase
  rw [h]

theorem reservasConfirmadasCount_congr {st1 st2 : Store}
    (h : st2.reservas = st1.reservas) :
    ∀ cid, reservasConfirmadasCount st2 cid = reservasConfirmadasCount st1 cid := by
  intro cid
  unfold reservasConfirmadasCount
  rw [h]

theorem getCuposDisponibles_congr {st1 st2 : Store}
    (h : st2.reservas = st1.reservas) :
    ∀ c, getCuposDisponibles st2 c = getCuposDisponibles st1 c := by
  intro c
  unfold getCuposDisponibles
  rw [reservasConfirmadasCount_congr h]

theorem reservasActivasCount_congr {st1 st2 : Store}
    (hr : st2.reservas = st1.reservas) (hc : st2.clases = st1.clases) :
    ∀ sid today, reservasActivasCount st2 sid today =
      reservasActivasCount st1 sid today := by
  intro sid today
  unfold reservasActivasCount
  rw [hr]
  congr 1
  refine List.filter_congr (fun r _ => ?_)
  rw [findClase_congr hc]

theorem procesar_spec (st : Store) (c : Clase) (now : Int) :
    procesarListaEspera st c now = st ∨
    ∃ e st2, ¬(getCuposDisponibles st c ≤ 0) ∧
      selectSiguiente st.listaEspera c.id = some e ∧
      insertReserva st (promocionRow st e c.id now) = Except.ok st2 ∧
      procesarListaEspera st c now =
        { st2 with listaEspera := st2.listaEspera.map (markNotificado e) } := by
  unfold procesarListaEspera
  split
  · exact Or.inl rfl
  · rename_i hcup
    split
    · exact Or.inl rfl
    · rename_i e hsel
      split

      · exact Or.inl rfl
      · rename_i st2 hins
        exact Or.inr ⟨e, st2, hcup, hsel, hins, rfl⟩

theorem crearReserva_spec {st st' : Store} {sid cid : Nat} {now : Int}
    {res : CrearResult} (h : crearReserva st sid cid now = (st', res)) :
    (st' = st ∧ ∀ r, res ≠ CrearResult.ok r) ∨
    ∃ u c st2, findUsuario st sid = some u ∧ findClase st cid = some c ∧
      (validateAll st u c now).1 = true ∧
      ¬(getCuposDisponibles st c ≤ 0) ∧
      insertReserva st
        { id := st.nextReservaId, claseId := c.id, socioId := u.id,
          estado := EstadoReserva.confirmada, fechaReserva := now,
          fechaCancelacion := none,
          prioridad := computePrioridad st u now } = Except.ok st2 ∧
      st' = st2 ∧
      res = CrearResult.ok
        { id := st.nextReservaId, claseId := c.id, socioId := u.id,
          estado := EstadoReserva.confirmada, fechaReserva := now,
          fechaCancelacion := none,
          prioridad := computePrioridad st u now } := by
  unfold crearReserva at h
  cases hu : findUsuario st sid with
  | none =>
    rw [hu] at h
    cases h
    exact Or.inl ⟨rfl, by simp⟩
  | some u =>
    rw [hu] at h
    cases hc : findClase st cid with
    | none =>
      rw [hc] at h
      cases h
      exact Or.inl ⟨rfl, by simp⟩
    | some c =>
      rw [hc] at h
      simp only [] at h
      cases hv : (validateAll st u c now).1 with
      | false =>
        rw [hv] at h
        simp only [Bool.not_false, if_true] at h
        cases h
        exact Or.inl ⟨rfl, by simp⟩
      | true =>
        rw [hv] at h
        simp only [Bool.not_true, if_false] at h
        by_cases hcup : getCuposDisponibles st c ≤ 0
        · rw [if_pos hcup] at h
          cases h
          exact Or.inl ⟨rfl, by simp⟩
        · rw [if_neg hcup] at h
          cases hins : insertReserva st
            { id := st.nextReservaId, claseId := c.id, socioId := u.id,
              estado := EstadoReserva.confirmada, fechaReserva := now,
              fechaCancelacion := none,
              prioridad := computePrioridad st u now } with
          | error m =>
            rw [hins] at h
            cases h
            exact Or.inl ⟨rfl, by simp⟩
          | ok st2 =>
            rw [hins] at h
            cases h
            exact Or.inr ⟨u, c, _, rfl, rfl, hv, hcup, hins, rfl, rfl⟩

end GymReservas

namespace GymReservas

theorem cancelarReserva_spec {st st' : Store} {rid sid : Nat} {now : Int}
    {res : CancelResult} (h : cancelarReserva st rid sid now = (st', res)) :
    (lookupReserva st rid sid = none ∧ st' = st ∧
      res = CancelResult.err "Reserva no encontrada") ∨
    (∃ r, lookupReserva st rid sid = some r ∧
      r.estado ≠ EstadoReserva.confirmada ∧ st' = st ∧
      res = CancelResult.err "Esta reserva no puede cancelarse") ∨
    (∃ r, lookupReserva st rid sid = some r ∧
      r.estado = EstadoReserva.confirmada ∧ findClase st r.claseId = none ∧
      st' = st ∧ res = CancelResult.raised "Clase inexistente") ∨
    (∃ r c, lookupReserva st rid sid = some r ∧
      r.estado = EstadoReserva.confirmada ∧ findClase st r.claseId = some c ∧
      puedeCancelarse r c now = false ∧ st' = st ∧
      res = CancelResult.err "No puedes cancelar con menos de 2 horas de anticipación") ∨
    (∃ r c m, lookupReserva st rid sid = some r ∧
      r.estado = EstadoReserva.confirmada ∧ findClase st r.claseId = some c ∧
      puedeCancelarse r c now = true ∧
      saveReservaUpdate st (canceladaRow st r sid now) = Except.error m ∧
      st' = st ∧ res = CancelResult.raised m) ∨
    (∃ r c st2, lookupReserva st rid sid = some r ∧
      r.estado = EstadoReserva.confirmada ∧ findClase st r.claseId = some c ∧
      puedeCancelarse r c now = true ∧
      saveReservaUpdate st (canceladaRow st r sid now) = Except.ok st2 ∧
      st' = procesarListaEspera st2 c now ∧ res = CancelResult.ok) := by
  unfold cancelarReserva at h
  cases hl : lookupReserva st rid sid with
  | none =>
    rw [hl] at h
    cases h
    exact Or.inl ⟨rfl, rfl, rfl⟩
  | some r =>
    rw [hl] at h
    simp only [] at h
    by_cases he : r.estado = EstadoReserva.confirmada
    · rw [if_neg (by simp [bne_iff_ne, he])] at h
      cases hc : findClase st r.claseId with
      | none =>
        rw [hc] at h
        cases h
        exact Or.inr (Or.inr (Or.inl ⟨r, rfl, he, hc, rfl, rfl⟩))
      | some c =>
        rw [hc] at h
        simp only [] at h
        cases hpc : puedeCancelarse r c now with
        | false =>
          rw [hpc] at h
          simp only [Bool.not_false, if_true] at h
          cases h
          exact Or.inr (Or.inr (Or.inr (Or.inl ⟨r, c, rfl, he, hc, hpc, rfl, rfl⟩)))
        | true =>
          rw [hpc] at h
          simp only [Bool.not_true, if_false] at h
          cases hs : saveReservaUpdate st (canceladaRow st r sid now) with
          | error m =>
            rw [hs] at h
            cases h
            exact Or.inr (Or.inr (Or.inr (Or.inr (Or.inl
              ⟨r, c, m, rfl, he, hc, hpc, hs, rfl, rfl⟩))))
          | ok st2 =>
            rw [hs] at h
            cases h
            exact Or.inr (Or.inr (Or.inr (Or.inr (Or.inr
              ⟨r, c, _, rfl, he, hc, hpc, hs, rfl, rfl⟩))))
    · rw [if_pos (bne_iff_ne.2 he)] at h
      cases h
      exact Or.inr (Or.inl ⟨r, rfl, he, rfl, rfl⟩)

end GymReservas

namespace GymReservas

theorem validateAll_eq (st : Store) (u : Usuario) (c : Clase) (now : Int) :
    validateAll st u c now =
      ((claseDisponibleValidate st u c now).1
          && (membresiaValidate st u c now).1
          && (cuposDisponiblesValidate st u c now).1
          && (limiteReservasValidate st u c now).1
          && (reservaDuplicadaValidate st u c now).1,
        (if (claseDisponibleValidate st u c now).1 then []
          else [(claseDisponibleValidate st u c now).2]) ++
        (if (membresiaValidate st u c now).1 then []
          else [(membresiaValidate st u c now).2]) ++
        (if (cuposDisponiblesValidate st u c now).1 then []
          else [(cuposDisponiblesValidate st u c now).2]) ++
        (if (limiteReservasValidate st u c now).1 then []
          else [(limiteReservasValidate st u c now).2]) ++
        (if (reservaDuplicadaValidate st u c now).1 then []
          else [(reservaDuplicadaValidate st u c now).2])) := by
  unfold validateAll strategies
  simp only [List.foldl_cons, List.foldl_nil]
  cases (claseDisponibleValidate st u c now).1 <;>
    cases (membresiaValidate st u c now).1 <;>
      cases (cuposDisponiblesValidate st u c now).1 <;>
        cases (limiteReservasValidate st u c now).1 <;>
          cases (reservaDuplicadaValidate st u c now).1 <;>
            simp

end GymReservas

namespace GymReservas

theorem validateAll_fst_true {st : Store} {u : Usuario} {c : Clase} {now : Int}
    (h : (validateAll st u c now).1 = true) :
    puedeReservarse st c now = true ∧
    (∃ p, u.perfil = some p ∧ membresiaVigente p (hoy now) = true) ∧
    ¬(getCuposDisponibles st c ≤ 0) ∧
    reservasActivasCount st u.id (hoy now) < 3 ∧
    tieneReservaConfirmada st u.id c.id = false := by
  rw [validateAll_eq] at h
  simp only [Bool.and_eq_true] at h
  obtain ⟨⟨⟨⟨h1, h2⟩, h3⟩, h4⟩, h5⟩ := h
  refine ⟨?_, ?_, ?_, ?_, ?_⟩
  · unfold claseDisponibleValidate at h1
    by_cases hp : puedeReservarse st c now = true
    · exact hp
    · rw [if_neg hp] at h1
      simp at h1
  · unfold membresiaValidate at h2
    cases hperf : u.perfil with
    | none =>
      rw [hperf] at h2
      simp at h2
    | some p =>
      rw [hperf] at h2
      by_cases hv : membresiaVigente p (hoy now) = true
      · exact ⟨p, rfl, hv⟩
      · simp [hv] at h2
  · unfold cuposDisponiblesValidate at h3
    by_cases hcup : getCuposDisponibles st c ≤ 0
    · rw [if_pos hcup] at h3
      simp at h3
    · exact hcup
  · unfold limiteReservasValidate at h4
    by_cases hlim : reservasActivasCount st u.id (hoy now) ≥ 3
    · rw [if_pos hlim] at h4
      simp at h4
    · omega
  · unfold reservaDuplicadaValidate at h5
    by_cases hdup : tieneReservaConfirmada st u.id c.id = true
    · rw [if_pos hdup] at h5
      simp at h5
    · simpa using hdup

theorem reservasConfirmadasCount_append {st st2 : Store} {r : Reserva}
    (h : st2.reservas = st.reservas ++ [r]) (cid : Nat) :
    reservasConfirmadasCount st2 cid =
      reservasConfirmadasCount st cid +
        (if r.claseId = cid ∧ r.estado = EstadoReserva.confirmada then 1 else 0) := by
  unfold reservasConfirmadasCount
  rw [h, List.filter_append, List.length_append]
  congr 1
  by_cases h1 : r.claseId = cid
  · by_cases h2 : r.estado = EstadoReserva.confirmada
    · simp [List.filter_singleton, h1, h2]
    · simp [List.filter_singleton, h1, h2]
  · simp [List.filter_singleton, h1]

theorem reservasConfirmadasCount_save_le {st st2 : Store} {r2 : Reserva}
    (h : st2.reservas = st.reservas.map (fun x => if x.id == r2.id then r2 else x))
    (hnc : r2.estado ≠ EstadoReserva.confirmada) (cid : Nat) :
    reservasConfirmadasCount st2 cid ≤ reservasConfirmadasCount st cid := by
  unfold reservasConfirmadasCount
  rw [h]
  refine length_filter_map_le _ _ ?_ _
  intro x hx
  by_cases hid : (x.id == r2.id) = true
  · rw [if_pos hid] at hx
    simp only [Bool.and_eq_true, beq_iff_eq] at hx
    exact absurd hx.2 hnc
  · rwa [if_neg hid] at hx

theorem invCapacidad_congr {st1 st2 : Store} (hr : st2.reservas = st1.reservas)
    (hc : st2.clases = st1.clases) (h : invCapacidad st1) : invCapacidad st2 := by
  intro c hcmem
  rw [hc] at hcmem
  rw [reservasConfirmadasCount_congr hr]
  exact h c hcmem

theorem cupos_pos_count_lt {st : Store} {c : Clase}
    (hcup : ¬(getCuposDisponibles st c ≤ 0)) :
    reservasConfirmadasCount st c.id < c.capacidad := by
  unfold getCuposDisponibles at hcup
  rw [max_le_iff] at hcup
  omega

theorem invCapacidad_insert {st st2 : Store} {r : Reserva} {c : Clase}
    (hins : insertReserva st r = Except.ok st2)
    (hnd : clasesNodupP st) (hc : c ∈ st.clases) (hrc : r.claseId = c.id)
    (hcup : ¬(getCuposDisponibles st c ≤ 0))
    (h : invCapacidad st) : invCapacidad st2 := by
  obtain ⟨_, hcl, hres, _, _, _⟩ := insertReserva_ok hins
  intro c2 hc2
  rw [hcl] at hc2
  rw [reservasConfirmadasCount_append hres]
  by_cases hif : r.claseId = c2.id ∧ r.estado = EstadoReserva.confirmada
  · have hcid : c.id = c2.id := by rw [← hif.1, hrc]
    have hceq : c = c2 := List.inj_on_of_nodup_map hnd hc hc2 hcid
    rw [if_pos hif]
    have := cupos_pos_count_lt hcup
    rw [hceq] at this
    omega
  · rw [if_neg hif]
    have := h c2 hc2
    omega

end GymReservas

namespace GymReservas

theorem findClase_mem {st : Store} {cid : Nat} {c : Clase}
    (h : findClase st cid = some c) : c ∈ st.clases ∧ c.id = cid := by
  unfold findClase at h
  refine ⟨List.mem_of_find?_eq_some h, ?_⟩
  have := List.find?_some h
  simpa using this

theorem findUsuario_mem {st : Store} {sid : Nat} {u : Usuario}
    (h : findUsuario st sid = some u) : u ∈ st.usuarios ∧ u.id = sid := by
  unfold findUsuario at h
  refine ⟨List.mem_of_find?_eq_some h, ?_⟩
  have := List.find?_some h
  simpa using this

theorem lookupReserva_mem {st : Store} {rid sid : Nat} {r : Reserva}
    (h : lookupReserva st rid sid = some r) :
    r ∈ st.reservas ∧ r.id = rid ∧ r.socioId = sid := by
  unfold lookupReserva at h
  refine ⟨List.mem_of_find?_eq_some h, ?_⟩
  have := List.find?_some h
  simp only [Bool.and_eq_true, beq_iff_eq] at this
  exact this

theorem clasesNodupP_congr {st1 st2 : Store} (h : st2.clases = st1.clases)
    (hn : clasesNodupP st1) : clasesNodupP st2 := by
  unfold clasesNodupP
  rw [h]
  exact hn

theorem canceladaRow_estado (st : Store) (r : Reserva) (sid : Nat) (now : Int) :
    (canceladaRow st r sid now).estado = EstadoReserva.cancelada := rfl

theorem canceladaRow_id (st : Store) (r : Reserva) (sid : Nat) (now : Int) :
    (canceladaRow st r sid now).id = r.id := rfl

theorem invCapacidad_procesar {st : Store} {c : Clase} (now : Int)
    (hnd : clasesNodupP st) (hc : c ∈ st.clases) (h : invCapacidad st) :
    invCapacidad (procesarListaEspera st c now) := by
  rcases procesar_spec st c now with heq | ⟨e, st2, hcup, hsel, hins, heq⟩
  · rwa [heq]
  · rw [heq]
    refine @invCapacidad_congr st2 _ rfl rfl ?_
    exact invCapacidad_insert hins hnd hc rfl hcup h

theorem invCapacidad_save {st st2 : Store} {r2 : Reserva}
    (hs : saveReservaUpdate st r2 = Except.ok st2)
    (hnc : r2.estado ≠ EstadoReserva.confirmada)
    (h : invCapacidad st) : invCapacidad st2 := by
  obtain ⟨_, hcl, hres, _, _, _⟩ := saveReservaUpdate_ok hs
  intro c hcmem
  rw [hcl] at hcmem
  exact Nat.le_trans (reservasConfirmadasCount_save_le hres hnc c.id) (h c hcmem)

theorem procesar_frame (st : Store) (c : Clase) (now : Int) :
    (procesarListaEspera st c now).usuarios = st.usuarios ∧
    (procesarListaEspera st c now).clases = st.clases ∧
    ∃ tail, (procesarListaEspera st c now).reservas = st.reservas ++ tail := by
  rcases procesar_spec st c now with heq | ⟨e, st2, hcup, hsel, hins, heq⟩
  · rw [heq]
    exact ⟨rfl, rfl, [], by simp⟩
  · obtain ⟨hu, hcl, hres, _, _, _⟩ := insertReserva_ok hins
    rw [heq]
    exact ⟨hu, hcl, [promocionRow st e c.id now], hres⟩

theorem agregar_frame (st : Store) (sid cid : Nat) (now : Int) :
    (agregarAListaEspera st sid cid now).1.usuarios = st.usuarios ∧
    (agregarAListaEspera st sid cid now).1.clases = st.clases ∧
    (agregarAListaEspera st sid cid now).1.reservas = st.reservas := by
  unfold agregarAListaEspera
  split
  · exact ⟨rfl, rfl, rfl⟩
  · split
    · exact ⟨rfl, rfl, rfl⟩
    · split
      · exact ⟨rfl, rfl, rfl⟩
      · split
        · exact ⟨rfl, rfl, rfl⟩
        · exact ⟨rfl, rfl, rfl⟩

theorem invCapacidad_crear (st : Store) (sid cid : Nat) (now : Int)
    (hnd : clasesNodupP st) (h : invCapacidad st) :
    invCapacidad (crearReserva st sid cid now).1 := by
  cases hcr : crearReserva st sid cid now with
  | mk st' res =>
    rcases crearReserva_spec hcr with ⟨heq, _⟩ |
      ⟨u, c, st2, hu, hc, hv, hcup, hins, heq, hres⟩
    · rw [heq]
      exact h
    · rw [heq]
      exact invCapacidad_insert hins hnd (findClase_mem hc).1 rfl hcup h

theorem invCapacidad_cancelar (st : Store) (rid sid : Nat) (now : Int)
    (hnd : clasesNodupP st) (h : invCapacidad st) :
    invCapacidad (cancelarReserva st rid sid now).1 := by
  cases hcc : cancelarReserva st rid sid now with
  | mk st' res =>
    rcases cancelarReserva_spec hcc with ⟨_, hst, _⟩ | ⟨r, _, _, hst, _⟩ |
      ⟨r, _, _, _, hst, _⟩ | ⟨r, c0, _, _, _, _, hst, _⟩ |
      ⟨r, c0, m, _, _, _, _, _, hst, _⟩ |
      ⟨r, c0, st2, hl, he, hc, hpc, hs, hst, _⟩
    · rw [hst]; exact h
    · rw [hst]; exact h
    · rw [hst]; exact h
    · rw [hst]; exact h
    · rw [hst]; exact h
    · rw [hst]
      obtain ⟨_, hcl, _, _, _, _⟩ := saveReservaUpdate_ok hs
      refine invCapacidad_procesar now (clasesNodupP_congr hcl hnd) ?_ ?_
      · rw [hcl]
        exact (findClase_mem hc).1
      · exact invCapacidad_save hs (by simp [canceladaRow_estado]) h

theorem invCapacidad_applyOp (st : Store) (op : Op)
    (hnd : clasesNodupP st) (h : invCapacidad st) :
    invCapacidad (applyOp st op) := by
  cases op with
  | crear sid cid now => exact invCapacidad_crear st sid cid now hnd h
  | cancelar rid sid now => exact invCapacidad_cancelar st rid sid now hnd h
  | agregar sid cid now =>
    obtain ⟨_, hcl, hres⟩ := agregar_frame st sid cid now
    exact invCapacidad_congr hres hcl h
  | promover cid now =>
    simp only [applyOp]
    cases hc : findClase st cid with
    | none => exact h
    | some c => exact invCapacidad_procesar now hnd (findClase_mem hc).1 h

theorem clases_applyOp (st : Store) (op : Op) :
    (applyOp st op).clases = st.clases := by
  cases op with
  | crear sid cid now =>
    simp only [applyOp]
    cases hcr : crearReserva st sid cid now with
    | mk st' res =>
      rcases crearReserva_spec hcr with ⟨heq, _⟩ |
        ⟨u, c, st2, _, _, _, _, hins, heq, _⟩
      · rw [heq]
      · rw [heq]
        exact (insertReserva_ok hins).2.1
  | cancelar rid sid now =>
    simp only [applyOp]
    cases hcc : cancelarReserva st rid sid now with
    | mk st' res =>
      rcases cancelarReserva_spec hcc with ⟨_, hst, _⟩ | ⟨r, _, _, hst, _⟩ |
        ⟨r, _, _, _, hst, _⟩ | ⟨r, c0, _, _, _, _, hst, _⟩ |
        ⟨r, c0, m, _, _, _, _, _, hst, _⟩ |
        ⟨r, c0, st2, _, _, _, _, hs, hst, _⟩
      · rw [hst]
      · rw [hst]
      · rw [hst]
      · rw [hst]
      · rw [hst]
      · rw [hst]
        rw [(procesar_frame st2 c0 now).2.1]
        exact (saveReservaUpdate_ok hs).2.1
  | agregar sid cid now => exact (agregar_frame st sid cid now).2.1
  | promover cid now =>
    simp only [applyOp]
    cases hc : findClase st cid with
    | none => rfl
    | some c => exact (procesar_frame st c now).2.1

end GymReservas

namespace GymReservas

theorem invDup_congr {st1 st2 : Store} (hr : st2.reservas = st1.reservas)
    (h : invDup st1) : invDup st2 := by
  intro r1 h1 r2 h2
  rw [hr] at h1 h2
  exact h r1 h1 r2 h2

theorem invDup_insert {st st2 : Store} {r : Reserva}
    (hins : insertReserva st r = Except.ok st2) (h : invDup st) : invDup st2 := by
  obtain ⟨_, _, hres, _, _, hguard⟩ := insertReserva_ok hins
  intro r1 h1 r2 h2 he1 he2 hsoc hcla
  rw [hres] at h1 h2
  rcases List.mem_append.1 h1 with h1a | h1b
  · rcases List.mem_append.1 h2 with h2a | h2b
    · exact h r1 h1a r2 h2a he1 he2 hsoc hcla
    · have hr2 : r2 = r := List.mem_singleton.1 h2b
      rw [hr2] at hsoc hcla he2
      exact absurd ⟨hsoc, hcla, he1.trans he2.symm⟩ (hguard r1 h1a)
  · have hr1 : r1 = r := List.mem_singleton.1 h1b
    rcases List.mem_append.1 h2 with h2a | h2b
    · rw [hr1] at hsoc hcla he1
      exact absurd ⟨hsoc.symm, hcla.symm, he2.trans he1.symm⟩ (hguard r2 h2a)
    · rw [hr1, List.mem_singleton.1 h2b]

theorem invDup_save {st st2 : Store} {r2 : Reserva}
    (hs : saveReservaUpdate st r2 = Except.ok st2)
    (hnc : r2.estado ≠ EstadoReserva.confirmada) (h : invDup st) : invDup st2 := by
  obtain ⟨_, _, hres, _, _, _⟩ := saveReservaUpdate_ok hs
  intro a ha b hb hea heb hsoc hcla
  rw [hres] at ha hb
  obtain ⟨x, hx, hfx⟩ := List.mem_map.1 ha
  obtain ⟨y, hy, hfy⟩ := List.mem_map.1 hb
  by_cases hxid : (x.id == r2.id) = true
  · rw [if_pos hxid] at hfx
    rw [← hfx] at hea
    exact absurd hea hnc
  · rw [if_neg hxid] at hfx
    by_cases hyid : (y.id == r2.id) = true
    · rw [if_pos hyid] at hfy
      rw [← hfy] at heb
      exact absurd heb hnc
    · rw [if_neg hyid] at hfy
      subst hfx hfy
      exact h x hx y hy hea heb hsoc hcla

theorem invDup_procesar {st : Store} {c : Clase} (now : Int)
    (h : invDup st) : invDup (procesarListaEspera st c now) := by
  rcases procesar_spec st c now with heq | ⟨e, st2, hcup, hsel, hins, heq⟩
  · rwa [heq]
  · rw [heq]
    exact @invDup_congr st2 _ rfl (invDup_insert hins h)

theorem invDup_applyOp (st : Store) (op : Op) (h : invDup st) :
    invDup (applyOp st op) := by
  cases op with
  | crear sid cid now =>
    simp only [applyOp]
    cases hcr : crearReserva st sid cid now with
    | mk st' res =>
      rcases crearReserva_spec hcr with ⟨heq, _⟩ |
        ⟨u, c, st2, _, _, _, _, hins, heq, _⟩
      · rwa [heq]
      · rw [heq]
        exact invDup_insert hins h
  | cancelar rid sid now =>
    simp only [applyOp]
    cases hcc : cancelarReserva st rid sid now with
    | mk st' res =>
      rcases cancelarReserva_spec hcc with ⟨_, hst, _⟩ | ⟨r, _, _, hst, _⟩ |
        ⟨r, _, _, _, hst, _⟩ | ⟨r, c0, _, _, _, _, hst, _⟩ |
        ⟨r, c0, m, _, _, _, _, _, hst, _⟩ |
        ⟨r, c0, st2, _, _, _, _, hs, hst, _⟩
      · rwa [hst]
      · rwa [hst]
      · rwa [hst]
      · rwa [hst]
      · rwa [hst]
      · rw [hst]
        exact invDup_procesar now
          (invDup_save hs (by simp [canceladaRow_estado]) h)
  | agregar sid cid now =>
    exact invDup_congr (agregar_frame st sid cid now).2.2 h
  | promover cid now =>
    simp only [applyOp]
    cases hc : findClase st cid with
    | none => exact h
    | some c => exact invDup_procesar now h

theorem invUnique_congr {st1 st2 : Store} (hr : st2.reservas = st1.reservas)
    (h : invUnique st1) : invUnique st2 := by
  intro r1 h1 r2 h2
  rw [hr] at h1 h2
  exact h r1 h1 r2 h2

theorem invUnique_insert {st st2 : Store} {r : Reserva}
    (hins : insertReserva st r = Except.ok st2) (h : invUnique st) :
    invUnique st2 := by
  obtain ⟨_, _, hres, _, _, hguard⟩ := insertReserva_ok hins
  intro r1 h1 r2 h2 hsoc hcla hest
  rw [hres] at h1 h2
  rcases List.mem_append.1 h1 with h1a | h1b
  · rcases List.mem_append.1 h2 with h2a | h2b
    · exact h r1 h1a r2 h2a hsoc hcla hest
    · have hr2 : r2 = r := List.mem_singleton.1 h2b
      rw [hr2] at hsoc hcla hest
      exact absurd ⟨hsoc, hcla, hest⟩ (hguard r1 h1a)
  · have hr1 : r1 = r := List.mem_singleton.1 h1b
    rcases List.mem_append.1 h2 with h2a | h2b
    · rw [hr1] at hsoc hcla hest
      exact absurd ⟨hsoc.symm, hcla.symm, hest.symm⟩ (hguard r2 h2a)
    · rw [hr1, List.mem_singleton.1 h2b]

theorem invUnique_save {st st2 : Store} {r2 : Reserva}
    (hs : saveReservaUpdate st r2 = Except.ok st2) (h : invUnique st) :
    invUnique st2 := by
  obtain ⟨_, _, hres, _, _, hguard⟩ := saveReservaUpdate_ok hs
  intro a ha b hb hsoc hcla hest
  rw [hres] at ha hb
  obtain ⟨x, hx, hfx⟩ := List.mem_map.1 ha
  obtain ⟨y, hy, hfy⟩ := List.mem_map.1 hb
  by_cases hxid : (x.id == r2.id) = true
  · rw [if_pos hxid] at hfx
    by_cases hyid : (y.id == r2.id) = true
    · rw [if_pos hyid] at hfy
      rw [← hfx, ← hfy]
    · rw [if_neg hyid] at hfy
      rw [← hfx] at hsoc hcla hest
      rw [← hfy] at hsoc hcla hest
      exact absurd ⟨hsoc.symm, hcla.symm, hest.symm⟩
        (hguard y hy (fun hbid => hyid (beq_iff_eq.2 hbid)))
  · rw [if_neg hxid] at hfx
    by_cases hyid : (y.id == r2.id) = true
    · rw [if_pos hyid] at hfy
      rw [← hfx] at hsoc hcla hest
      rw [← hfy] at hsoc hcla hest
      exact absurd ⟨hsoc, hcla, hest⟩
        (hguard x hx (fun haid => hxid (beq_iff_eq.2 haid)))
    · rw [if_neg hyid] at hfy
      rw [← hfx, ← hfy]
      rw [← hfx] at hsoc hcla hest
      rw [← hfy] at hsoc hcla hest
      exact h x hx y hy hsoc hcla hest

theorem invUnique_procesar {st : Store} {c : Clase} (now : Int)
    (h : invUnique st) : invUnique (procesarListaEspera st c now) := by
  rcases procesar_spec st c now with heq | ⟨e, st2, hcup, hsel, hins, heq⟩
  · rwa [heq]
  · rw [heq]
    exact @invUnique_congr st2 _ rfl (invUnique_insert hins h)

theorem invUnique_applyOp (st : Store) (op : Op) (h : invUnique st) :
    invUnique (applyOp st op) := by
  cases op with
  | crear sid cid now =>
    simp only [applyOp]
    cases hcr : crearReserva st sid cid now with
    | mk st' res =>
      rcases crearReserva_spec hcr with ⟨heq, _⟩ |
        ⟨u, c, st2, _, _, _, _, hins, heq, _⟩
      · rwa [heq]
      · rw [heq]
        exact invUnique_insert hins h
  | cancelar rid sid now =>
    simp only [applyOp]
    cases hcc : cancelarReserva st rid sid now with
    | mk st' res =>
      rcases cancelarReserva_spec hcc with ⟨_, hst, _⟩ | ⟨r, _, _, hst, _⟩ |
        ⟨r, _, _, _, hst, _⟩ | ⟨r, c0, _, _, _, _, hst, _⟩ |
        ⟨r, c0, m, _, _, _, _, _, hst, _⟩ |
        ⟨r, c0, st2, _, _, _, _, hs, hst, _⟩
      · rwa [hst]
      · rwa [hst]
      · rwa [hst]
      · rwa [hst]
      · rwa [hst]
      · rw [hst]
        exact invUnique_procesar now (invUnique_save hs h)
  | agregar sid cid now =>
    exact invUnique_congr (agregar_frame st sid cid now).2.2 h
  | promover cid now =>
    simp only [applyOp]
    cases hc : findClase st cid with
    | none => exact h
    | some c => exact invUnique_procesar now h

end GymReservas

namespace GymReservas

theorem reservasActivasCount_append {st st2 : Store} {r : Reserva}
    (h : st2.reservas = st.reservas ++ [r]) (hc : st2.clases = st.clases)
    (sid : Nat) (today : Int) :
    reservasActivasCount st2 sid today =
      reservasActivasCount st sid today +
      (if (r.socioId == sid && r.estado == EstadoReserva.confirmada &&
          (match findClase st r.claseId with
           | some cc => decide (cc.fecha ≥ today)
           | none => false)) = true then 1 else 0) := by
  unfold reservasActivasCount
  have hfc : ∀ cid, findClase st2 cid = findClase st cid := findClase_congr hc
  simp only [hfc]
  rw [h, List.filter_append, List.length_append]
  congr 1
  by_cases hp : (r.socioId == sid && r.estado == EstadoReserva.confirmada &&
      (match findClase st r.claseId with
       | some cc => decide (cc.fecha ≥ today)
       | none => false)) = true
  · simp [hp]
  · simp [hp]

/-- C1: in every state reachable by any sequence of booking, cancellation,
waitlist-registration and promotion operations from a state with distinct
session keys satisfying the capacity invariant, every session has at most
`capacidad` confirmed reservations. -/
theorem spec_c1 (st : Store) (ops : List Op)
    (hnd : clasesNodupP st) (hinv : invCapacidad st) :
    invCapacidad (runOps st ops) := by
  induction ops generalizing st with
  | nil => exact hinv
  | cons op rest ih =>
    simp only [runOps, List.foldl_cons]
    exact ih (applyOp st op) (clasesNodupP_congr (clases_applyOp st op) hnd)
      (invCapacidad_applyOp st op hnd hinv)

/-- C1 witness: the capacity invariant holds after a concrete run from the
empty fixture store. -/
theorem spec_c1_witness :
    clasesNodupP st0 ∧ invCapacidad st0 ∧ invCapacidad (runOps st0 opsC3) :=
  ⟨by decide, by decide, spec_c1 st0 opsC3 (by decide) (by decide)⟩

/-- C2: in every state reachable by the operations from a state with at most
one confirmed reservation per (member, session) pair, that uniqueness is
preserved: direct booking and waitlist promotion both insert through the store
constraint. -/
theorem spec_c2 (st : Store) (ops : List Op) (hinv : invDup st) :
    invDup (runOps st ops) := by
  induction ops generalizing st with
  | nil => exact hinv
  | cons op rest ih =>
    simp only [runOps, List.foldl_cons]
    exact ih (applyOp st op) (invDup_applyOp st op hinv)

/-- C2 witness: the one-confirmed-per-pair invariant holds after a concrete
run from the empty fixture store. -/
theorem spec_c2_witness : invDup st0 ∧ invDup (runOps st0 opsC3) :=
  ⟨by decide, spec_c2 st0 opsC3 (by decide)⟩

/-- C3 counterexample: from a state satisfying the three-reservation cap, the
cancellation of session 4 promotes member 1 from the waitlist to a fourth
confirmed future reservation, so the cap is violated in a reachable state. -/
theorem spec_c3_cex :
    invLimite st0 now0 ∧ ¬ invLimite (runOps st0 opsC3) now0 := by
  constructor
  · decide
  · decide

/-- C3 amended: direct booking (crear_reserva) preserves the three-reservation
cap; waitlist promotion runs no cap check and can exceed it. -/
theorem spec_c3_amended (st : Store) (sid cid : Nat) (now : Int)
    (h : invLimite st now) : invLimite (crearReserva st sid cid now).1 now := by
  cases hcr : crearReserva st sid cid now with
  | mk st' res =>
    rcases crearReserva_spec hcr with ⟨heq, _⟩ |
      ⟨u, c, st2, hu, hc, hv, hcup, hins, heq, _⟩
    · rw [heq]
      exact h
    · rw [heq]
      obtain ⟨husr, hcl, hres, _, _, _⟩ := insertReserva_ok hins
      intro u2 hu2
      rw [husr] at hu2
      rw [reservasActivasCount_append hres hcl u2.id (hoy now)]
      split
      · rename_i hcond
        simp only [Bool.and_eq_true, beq_iff_eq] at hcond
        have hid : u.id = u2.id := by simpa using hcond.1.1
        have hlt := (validateAll_fst_true hv).2.2.2.1
        rw [hid] at hlt
        omega
      · have := h u2 hu2
        omega

/-- C3 amended witness: a concrete booking preserving the cap. -/
theorem spec_c3_amended_witness :
    invLimite st0 now0 ∧ invLimite (crearReserva st0 1 1 now0).1 now0 :=
  ⟨by decide, spec_c3_amended st0 1 1 now0 (by decide)⟩

end GymReservas

namespace GymReservas

/-- C4: cancelar_reserva returns the not-found error exactly when no
reservation with the id belongs to the member; the invalid-state error exactly
when the found reservation is not confirmed (so cancelling an
already-cancelled reservation returns it, with the store — hence the waitlist
— untouched); the too-late error exactly when the earlier checks pass and now
is past the two-hour cutoff; and every non-success outcome leaves the store
unchanged. -/
theorem spec_c4 (st : Store) (rid sid : Nat) (now : Int) :
    ((cancelarReserva st rid sid now).2 =
        CancelResult.err "Reserva no encontrada" ↔
      lookupReserva st rid sid = none) ∧
    (∀ r, lookupReserva st rid sid = some r →
      ((cancelarReserva st rid sid now).2 =
          CancelResult.err "Esta reserva no puede cancelarse" ↔
        r.estado ≠ EstadoReserva.confirmada)) ∧
    (∀ r c, lookupReserva st rid sid = some r →
      r.estado = EstadoReserva.confirmada → findClase st r.claseId = some c →
      ((cancelarReserva st rid sid now).2 =
          CancelResult.err "No puedes cancelar con menos de 2 horas de anticipación" ↔
        claseDatetime c - 120 < now)) ∧
    ((cancelarReserva st rid sid now).2 ≠ CancelResult.ok →
      (cancelarReserva st rid sid now).1 = st) := by
  cases hcc : cancelarReserva st rid sid now with
  | mk st' res =>
    dsimp only
    rcases cancelarReserva_spec hcc with ⟨hl, hst, hres⟩ |
      ⟨r0, hl, hne, hst, hres⟩ | ⟨r0, hl, he, hcn, hst, hres⟩ |
      ⟨r0, c, hl, he, hc, hpc, hst, hres⟩ |
      ⟨r0, c, m, hl, he, hc, hpc, hsv, hst, hres⟩ |
      ⟨r0, c, st2, hl, he, hc, hpc, hsv, hst, hres⟩
    · subst hst
      subst hres
      refine ⟨iff_of_true rfl hl, ?_, ?_, fun _ => rfl⟩
      · intro r hr
        rw [hl] at hr
        cases hr
      · intro r c hr he2 hc2
        rw [hl] at hr
        cases hr
    · subst hst
      subst hres
      refine ⟨iff_of_false (by decide) (by rw [hl]; simp), ?_, ?_, fun _ => rfl⟩
      · intro r hr
        rw [hl] at hr
        injection hr with h9
        exact iff_of_true rfl (h9 ▸ hne)
      · intro r c hr he2 hc2
        rw [hl] at hr
        injection hr with h9
        exact absurd (h9.symm ▸ he2) hne
    · subst hst
      subst hres
      refine ⟨iff_of_false (by decide) (by rw [hl]; simp), ?_, ?_, fun _ => rfl⟩
      · intro r hr
        rw [hl] at hr
        injection hr with h9
        exact iff_of_false (by decide) (fun hx => hx (h9 ▸ he))
      · intro r c hr he2 hc2
        rw [hl] at hr
        injection hr with h9
        rw [← h9, hcn] at hc2
        cases hc2
    · subst hst
      subst hres
      refine ⟨iff_of_false (by decide) (by rw [hl]; simp), ?_, ?_, fun _ => rfl⟩
      · intro r hr
        rw [hl] at hr
        injection hr with h9
        exact iff_of_false (by decide) (fun hx => hx (h9 ▸ he))
      · intro r c2 hr he2 hc2
        rw [hl] at hr
        injection hr with h9
        rw [← h9, hc] at hc2
        injection hc2 with h8
        refine iff_of_true rfl ?_
        unfold puedeCancelarse at hpc
        simp only [he, Bool.and_eq_true, beq_iff_eq, decide_eq_true_eq,
          Bool.and_eq_false_iff, decide_eq_false_iff_not] at hpc
        rcases hpc with hpc | hpc
        · exact absurd hpc (by decide)
        · rw [← h8]
          omega
    · subst hst
      subst hres
      refine ⟨iff_of_false (by simp) (by rw [hl]; simp), ?_, ?_, fun _ => rfl⟩
      · intro r hr
        rw [hl] at hr
        injection hr with h9
        exact iff_of_false (by simp) (fun hx => hx (h9 ▸ he))
      · intro r c2 hr he2 hc2
        rw [hl] at hr
        injection hr with h9
        rw [← h9, hc] at hc2
        injection hc2 with h8
        refine iff_of_false (by simp) ?_
        unfold puedeCancelarse at hpc
        simp only [Bool.and_eq_true, beq_iff_eq, decide_eq_true_eq] at hpc
        rw [← h8]
        omega
    · subst hst
      subst hres
      refine ⟨iff_of_false (by simp) (by rw [hl]; simp), ?_, ?_,
        fun hx => absurd rfl hx⟩
      · intro r hr
        rw [hl] at hr
        injection hr with h9
        exact iff_of_false (by simp) (fun hx => hx (h9 ▸ he))
      · intro r c2 hr he2 hc2
        rw [hl] at hr
        injection hr with h9
        rw [← h9, hc] at hc2
        injection hc2 with h8
        refine iff_of_false (by simp) ?_
        unfold puedeCancelarse at hpc
        simp only [Bool.and_eq_true, beq_iff_eq, decide_eq_true_eq] at hpc
        rw [← h8]
        omega

/-- C4 witness: concrete not-found cancellation on the fixture store. -/
theorem spec_c4_witness :
    (cancelarReserva st0 5 1 now0).2 = CancelResult.err "Reserva no encontrada" :=
  (spec_c4 st0 5 1 now0).1.mpr (by decide)

end GymReservas

namespace GymReservas

/-- C5 counterexample: in the reachable re-booking store, the lookup, status
and time-window checks of cancelar_reserva all pass, yet the cancellation does
not succeed — persisting the cancelled row violates the (socio, clase, estado)
uniqueness constraint, the transaction rolls back, and the store is unchanged
(the reservation stays confirmed). -/
theorem spec_c5_cex :
    lookupReserva stRebook 1 1 = some rRebook ∧
    rRebook.estado = EstadoReserva.confirmada ∧
    findClase stRebook rRebook.claseId = some cl1 ∧
    puedeCancelarse rRebook cl1 now0 = true ∧
    cancelarReserva stRebook 1 1 now0 =
      (stRebook,
        CancelResult.raised "UNIQUE constraint failed: socio, clase, estado") :=
  ⟨by decide, by decide, by decide, by decide, by decide⟩

/-- C5 amended: once the lookup, status and window checks pass and persisting
the cancelled row does not violate the (member, session, status) uniqueness
constraint — the member has no other cancelled row for the session — the
cancellation succeeds, the reservation ends cancelled and stamped in the
resulting store, and waitlist promotion cannot fail the call or undo the
cancellation. -/
theorem spec_c5_amended (st : Store) (rid sid : Nat) (now : Int)
    (r : Reserva) (c : Clase)
    (hl : lookupReserva st rid sid = some r)
    (he : r.estado = EstadoReserva.confirmada)
    (hc : findClase st r.claseId = some c)
    (hp : puedeCancelarse r c now = true)
    (hnodup : ∀ x ∈ st.reservas, x.id ≠ r.id →
      ¬(x.socioId = r.socioId ∧ x.claseId = r.claseId ∧
        x.estado = EstadoReserva.cancelada)) :
    (cancelarReserva st rid sid now).2 = CancelResult.ok ∧
    ∃ rr ∈ (cancelarReserva st rid sid now).1.reservas,
      rr.id = r.id ∧ rr.estado = EstadoReserva.cancelada ∧
      rr.fechaCancelacion = some now := by
  have hguard : ∀ x ∈ st.reservas, x.id ≠ (canceladaRow st r sid now).id →
      ¬(x.socioId = (canceladaRow st r sid now).socioId ∧
        x.claseId = (canceladaRow st r sid now).claseId ∧
        x.estado = (canceladaRow st r sid now).estado) := by
    intro x hx hxid
    exact hnodup x hx hxid
  cases hcc : cancelarReserva st rid sid now with
  | mk st' res =>
    dsimp only
    rcases cancelarReserva_spec hcc with ⟨hl2, hst, hres⟩ |
      ⟨r2, hl2, hne, hst, hres⟩ | ⟨r2, hl2, he2, hcn, hst, hres⟩ |
      ⟨r2, c2, hl2, he2, hc2, hpc2, hst, hres⟩ |
      ⟨r2, c2, m, hl2, he2, hc2, hpc2, hsv, hst, hres⟩ |
      ⟨r2, c2, st2, hl2, he2, hc2, hpc2, hsv, hst, hres⟩
    · rw [hl] at hl2
      cases hl2
    · rw [hl] at hl2
      injection hl2 with h9
      exact absurd (h9.symm ▸ he) hne
    · rw [hl] at hl2
      injection hl2 with h9
      rw [← h9, hc] at hcn
      cases hcn
    · rw [hl] at hl2
      injection hl2 with h9
      rw [← h9, hc] at hc2
      injection hc2 with h8
      rw [← h9, ← h8, hp] at hpc2
      cases hpc2
    · rw [hl] at hl2
      injection hl2 with h9
      rw [← h9] at hsv
      rw [saveReservaUpdate_ok_of hguard] at hsv
      cases hsv
    · rw [hl] at hl2
      injection hl2 with h9
      rw [← h9, hc] at hc2
      injection hc2 with h8
      subst hres
      refine ⟨rfl, ?_⟩
      rw [← h9] at hsv
      rw [saveReservaUpdate_ok_of hguard] at hsv
      injection hsv with h7
      subst hst
      obtain ⟨_, _, hptail⟩ := procesar_frame st2 c2 now
      obtain ⟨tail, htail⟩ := hptail
      refine ⟨canceladaRow st r sid now, ?_, rfl, rfl, rfl⟩
      rw [htail]
      refine List.mem_append_left _ ?_
      rw [← h7]
      refine List.mem_map.2 ⟨r, (lookupReserva_mem hl).1, ?_⟩
      rw [if_pos (by simp [canceladaRow_id])]

/-- C5 amended witness: a concrete successful cancellation on the one-booking
fixture store. -/
theorem spec_c5_witness :
    (cancelarReserva stW 0 1 now0).2 = CancelResult.ok ∧
    ∃ rr ∈ (cancelarReserva stW 0 1 now0).1.reservas,
      rr.id = rW.id ∧ rr.estado = EstadoReserva.cancelada ∧
      rr.fechaCancelacion = some now0 :=
  spec_c5_amended stW 0 1 now0 rW cl1 (by decide) (by decide) (by decide)
    (by decide) (by decide)

end GymReservas

namespace GymReservas

theorem noPeor_trans {a b c : EntradaListaEspera}
    (h1 : a.prioridad > b.prioridad ∨
      (a.prioridad = b.prioridad ∧ a.fechaRegistro ≤ b.fechaRegistro))
    (h2 : b.prioridad > c.prioridad ∨
      (b.prioridad = c.prioridad ∧ b.fechaRegistro ≤ c.fechaRegistro)) :
    a.prioridad > c.prioridad ∨
      (a.prioridad = c.prioridad ∧ a.fechaRegistro ≤ c.fechaRegistro) := by
  rcases h1 with h1 | ⟨h1a, h1b⟩ <;> rcases h2 with h2 | ⟨h2a, h2b⟩
  · left
    omega
  · left
    omega
  · left
    omega
  · right
    exact ⟨by omega, by omega⟩

theorem mejorEntrada_cases (a e : EntradaListaEspera) :
    (mejorEntrada a e = a ∧ (a.prioridad > e.prioridad ∨
      (a.prioridad = e.prioridad ∧ a.fechaRegistro ≤ e.fechaRegistro))) ∨
    (mejorEntrada a e = e ∧ (e.prioridad > a.prioridad ∨
      (e.prioridad = a.prioridad ∧ e.fechaRegistro ≤ a.fechaRegistro))) := by
  unfold mejorEntrada
  split
  · rename_i hcond
    simp only [Bool.or_eq_true, Bool.and_eq_true, beq_iff_eq,
      decide_eq_true_eq] at hcond
    refine Or.inr ⟨rfl, ?_⟩
    rcases hcond with hgt | ⟨hq, hlt⟩
    · exact Or.inl hgt
    · exact Or.inr ⟨hq, le_of_lt hlt⟩
  · rename_i hcond
    simp only [Bool.or_eq_true, Bool.and_eq_true, beq_iff_eq,
      decide_eq_true_eq, not_or, not_and, not_lt] at hcond
    obtain ⟨h1, h2⟩ := hcond
    refine Or.inl ⟨rfl, ?_⟩
    by_cases hq : e.prioridad = a.prioridad
    · exact Or.inr ⟨hq.symm, h2 hq⟩
    · left
      omega

theorem foldl_elegirMejor_spec :
    ∀ (l : List EntradaListaEspera) (a : EntradaListaEspera),
    ∃ m, l.foldl elegirMejor (some a) = some m ∧ (m ∈ l ∨ m = a) ∧
      (∀ x ∈ l, m.prioridad > x.prioridad ∨
        (m.prioridad = x.prioridad ∧ m.fechaRegistro ≤ x.fechaRegistro)) ∧
      (m.prioridad > a.prioridad ∨
        (m.prioridad = a.prioridad ∧ m.fechaRegistro ≤ a.fechaRegistro))
  | [], a => ⟨a, rfl, Or.inr rfl, by simp, Or.inr ⟨rfl, le_refl _⟩⟩
  | e :: tl, a => by
    obtain ⟨m, heq, hmem, hbest, hacc⟩ :=
      foldl_elegirMejor_spec tl (mejorEntrada a e)
    refine ⟨m, ?_, ?_, ?_, ?_⟩
    · simpa using heq
    · rcases hmem with hm | hm
      · exact Or.inl (List.mem_cons_of_mem _ hm)
      · rcases mejorEntrada_cases a e with ⟨hma, _⟩ | ⟨hme2, _⟩
        · exact Or.inr (by rw [hm, hma])
        · exact Or.inl (by rw [hm, hme2]; exact List.mem_cons_self _ _)
    · intro x hx
      rcases List.mem_cons.1 hx with hx | hx
      · rw [hx]
        rcases mejorEntrada_cases a e with ⟨hma, hcmp⟩ | ⟨hme2, hcmp⟩
        · rw [hma] at hacc
          exact noPeor_trans hacc hcmp
        · rwa [hme2] at hacc
      · exact hbest x hx
    · rcases mejorEntrada_cases a e with ⟨hma, _⟩ | ⟨hme2, hcmp⟩
      · rwa [hma] at hacc
      · rw [hme2] at hacc
        exact noPeor_trans hacc hcmp

theorem selectSiguiente_none_of (l : List EntradaListaEspera) (cid : Nat)
    (h : ∀ e ∈ l, e.claseId = cid → e.notificado = true) :
    selectSiguiente l cid = none := by
  unfold selectSiguiente
  have hf : l.filter (fun e => e.claseId == cid && !e.notificado) = [] := by
    rw [List.filter_eq_nil_iff]
    intro e he
    simp only [Bool.and_eq_true, beq_iff_eq, Bool.not_eq_true', not_and]
    intro hcid
    simp [h e he hcid]
  rw [hf]
  rfl

theorem selectSiguiente_some {l : List EntradaListaEspera} {cid : Nat}
    {e : EntradaListaEspera} (h : selectSiguiente l cid = some e) :
    e ∈ l ∧ e.claseId = cid ∧ e.notificado = false ∧
    ∀ x ∈ l, x.claseId = cid → x.notificado = false →
      e.prioridad > x.prioridad ∨
        (e.prioridad = x.prioridad ∧ e.fechaRegistro ≤ x.fechaRegistro) := by
  unfold selectSiguiente at h
  cases hf : l.filter (fun x => x.claseId == cid && !x.notificado) with
  | nil =>
    rw [hf] at h
    cases h
  | cons e0 tl =>
    rw [hf] at h
    simp only [List.foldl_cons] at h
    obtain ⟨m, heq, hmem, hbest, hacc⟩ := foldl_elegirMejor_spec tl e0
    rw [show elegirMejor none e0 = some e0 from rfl, heq] at h
    injection h with hme
    have hef : e ∈ l.filter (fun x => x.claseId == cid && !x.notificado) := by
      rw [hf]
      rcases hmem with hm | hm
      · exact List.mem_cons_of_mem _ (hme ▸ hm)
      · rw [← hme, hm]
        exact List.mem_cons_self _ _
    have hfe := List.mem_filter.1 hef
    have hpe := hfe.2
    simp only [Bool.and_eq_true, beq_iff_eq, Bool.not_eq_true'] at hpe
    refine ⟨hfe.1, hpe.1, hpe.2, ?_⟩
    intro x hx hxcid hxnot
    have hxf : x ∈ l.filter (fun x => x.claseId == cid && !x.notificado) := by
      refine List.mem_filter.2 ⟨hx, ?_⟩
      simp [hxcid, hxnot]
    rw [hf] at hxf
    rcases List.mem_cons.1 hxf with hx0 | hxtl
    · subst hx0
      exact hme ▸ hacc
    · exact hme ▸ hbest x hxtl

end GymReservas

namespace GymReservas

/-- C6: promotion is a no-op when the session has no free seat or no pending
waitlist row; a selected row is a pending row of the session of maximal
priority with earliest registration among ties; and — amended — when the
selected member does not already hold a confirmed reservation for the session,
promotion appends that member's confirmed reservation and marks the row
notified (if the member already holds one, the insertion failure is swallowed
and nothing changes, as the counterexample shows). -/
theorem spec_c6 (st : Store) (c : Clase) (now : Int) :
    (getCuposDisponibles st c ≤ 0 → procesarListaEspera st c now = st) ∧
    (selectSiguiente st.listaEspera c.id = none →
      procesarListaEspera st c now = st) ∧
    ((∀ e ∈ st.listaEspera, e.claseId = c.id → e.notificado = true) →
      procesarListaEspera st c now = st) ∧
    (∀ e, selectSiguiente st.listaEspera c.id = some e →
      e ∈ st.listaEspera ∧ e.claseId = c.id ∧ e.notificado = false ∧
      ∀ x ∈ st.listaEspera, x.claseId = c.id → x.notificado = false →
        e.prioridad > x.prioridad ∨
          (e.prioridad = x.prioridad ∧ e.fechaRegistro ≤ x.fechaRegistro)) ∧
    (∀ e, ¬(getCuposDisponibles st c ≤ 0) →
      selectSiguiente st.listaEspera c.id = some e →
      tieneReservaConfirmada st e.socioId c.id = false →
      (procesarListaEspera st c now).reservas =
        st.reservas ++ [promocionRow st e c.id now] ∧
      (promocionRow st e c.id now).socioId = e.socioId ∧
      (promocionRow st e c.id now).claseId = c.id ∧
      (promocionRow st e c.id now).estado = EstadoReserva.confirmada ∧
      ∃ x ∈ (procesarListaEspera st c now).listaEspera,
        x.claseId = c.id ∧ x.socioId = e.socioId ∧ x.notificado = true) := by
  refine ⟨?_, ?_, ?_, ?_, ?_⟩
  · intro h0
    unfold procesarListaEspera
    rw [if_pos h0]
  · intro h0
    unfold procesarListaEspera
    split
    · rfl
    · rw [h0]
  · intro h0
    unfold procesarListaEspera
    split
    · rfl
    · rw [selectSiguiente_none_of st.listaEspera c.id h0]
  · intro e hsel
    exact selectSiguiente_some hsel
  · intro e hcup hsel htiene
    have hguard : ∀ x ∈ st.reservas,
        ¬(x.socioId = (promocionRow st e c.id now).socioId ∧
          x.claseId = (promocionRow st e c.id now).claseId ∧
          x.estado = (promocionRow st e c.id now).estado) := by
      rintro x hx ⟨h1, h2, h3⟩
      have hany : st.reservas.any (fun r =>
          r.socioId == e.socioId && r.claseId == c.id &&
          r.estado == EstadoReserva.confirmada) = true := by
        refine List.any_eq_true.2 ⟨x, hx, ?_⟩
        simp only [Bool.and_eq_true, beq_iff_eq]
        exact ⟨⟨h1, h2⟩, h3⟩
      unfold tieneReservaConfirmada at htiene
      rw [hany] at htiene
      cases htiene
    have hins := insertReserva_ok_of hguard
    unfold procesarListaEspera
    rw [if_neg hcup, hsel]
    dsimp only
    rw [hins]
    refine ⟨rfl, rfl, rfl, rfl, ?_⟩
    obtain ⟨hemem, hecid, henot, _⟩ := selectSiguiente_some hsel
    refine ⟨markNotificado e e, ?_, ?_⟩
    · exact List.mem_map.2 ⟨e, hemem, rfl⟩
    · unfold markNotificado
      rw [if_pos (by simp)]
      exact ⟨hecid, rfl, rfl⟩

/-- C6 counterexample: a session with free seats and a selected pending
waitlist row on which promotion nevertheless changes nothing, because the
selected member already holds a confirmed reservation and the insertion
failure is silently swallowed (the row is not even marked notified). -/
theorem spec_c6_cex :
    ¬(getCuposDisponibles stC6 cl1 ≤ 0) ∧
    selectSiguiente stC6.listaEspera cl1.id = some eC6 ∧
    procesarListaEspera stC6 cl1 now0 = stC6 :=
  ⟨by decide, by decide, by decide⟩

/-- C6 witness: a concrete successful promotion on the fixture store with a
free seat and one pending candidate. -/
theorem spec_c6_witness :
    (procesarListaEspera stP cl1 now0).reservas =
      stP.reservas ++ [promocionRow stP eC6 cl1.id now0] ∧
    (promocionRow stP eC6 cl1.id now0).socioId = eC6.socioId ∧
    (promocionRow stP eC6 cl1.id now0).claseId = cl1.id ∧
    (promocionRow stP eC6 cl1.id now0).estado = EstadoReserva.confirmada ∧
    ∃ x ∈ (procesarListaEspera stP cl1 now0).listaEspera,
      x.claseId = cl1.id ∧ x.socioId = eC6.socioId ∧ x.notificado = true :=
  (spec_c6 stP cl1 now0).2.2.2.2 eC6 (by decide) (by decide) (by decide)

end GymReservas

namespace GymReservas

/-- C7: validate_all evaluates the five checks in the fixed order session
eligibility, membership, capacity, active cap, duplicate, never
short-circuits — its error list is exactly the concatenation of the failure
message of every failing check, in that order — and it reports valid exactly
when that list is empty. -/
theorem spec_c7 (st : Store) (u : Usuario) (c : Clase) (now : Int) :
    (validateAll st u c now).2 =
      (if puedeReservarse st c now then []
        else ["Esta clase no está disponible para reservas"]) ++
      (match u.perfil with
       | none => ["No tienes un perfil de socio asociado"]
       | some p =>
         if membresiaVigente p (hoy now) then []
         else ["Tu membresía no está vigente"]) ++
      (if getCuposDisponibles st c ≤ 0 then ["No hay cupos disponibles"]
        else []) ++
      (if reservasActivasCount st u.id (hoy now) ≥ 3 then
        ["Has alcanzado el límite de 3 reservas activas"] else []) ++
      (if tieneReservaConfirmada st u.id c.id then
        ["Ya tienes una reserva para esta clase"] else []) ∧
    ((validateAll st u c now).1 = true ↔ (validateAll st u c now).2 = []) := by
  unfold validateAll strategies claseDisponibleValidate membresiaValidate
    cuposDisponiblesValidate limiteReservasValidate reservaDuplicadaValidate
  simp only [List.foldl_cons, List.foldl_nil]
  cases hperf : u.perfil with
  | none =>
    by_cases h1 : puedeReservarse st c now = true <;>
      by_cases h3 : getCuposDisponibles st c ≤ 0 <;>
        by_cases h4 : reservasActivasCount st u.id (hoy now) ≥ 3 <;>
          by_cases h5 : tieneReservaConfirmada st u.id c.id = true <;>
            simp [h1, h3, h4, h5]
  | some p =>
    by_cases h1 : puedeReservarse st c now = true <;>
      by_cases h2 : membresiaVigente p (hoy now) = true <;>
        by_cases h3 : getCuposDisponibles st c ≤ 0 <;>
          by_cases h4 : reservasActivasCount st u.id (hoy now) ≥ 3 <;>
            by_cases h5 : tieneReservaConfirmada st u.id c.id = true <;>
              simp [h1, h2, h3, h4, h5]

/-- C8: seats remaining equal max(0, capacity - confirmed count), are never
negative, and esta_llena holds exactly when they are zero. -/
theorem spec_c8 (st : Store) (c : Clase) :
    getCuposDisponibles st c =
      max 0 ((c.capacidad : Int) - (reservasConfirmadasCount st c.id : Int)) ∧
    0 ≤ getCuposDisponibles st c ∧
    (estaLlena st c = true ↔ getCuposDisponibles st c = 0) := by
  refine ⟨rfl, le_max_left 0 _, ?_⟩
  have h0 : 0 ≤ getCuposDisponibles st c := le_max_left 0 _
  unfold estaLlena
  simp only [decide_eq_true_eq]
  constructor
  · intro h
    omega
  · intro h
    omega

end GymReservas

namespace GymReservas

theorem procesar_of_select_none {st : Store} {c : Clase} (now : Int)
    (h : selectSiguiente st.listaEspera c.id = none) :
    procesarListaEspera st c now = st := by
  unfold procesarListaEspera
  split
  · rfl
  · rw [h]

/-- C9 counterexample: with a pending waitlist candidate on the capacity-one
session, member 1's successful booking followed immediately by its successful
cancellation does not restore seats_remaining: the freed seat goes to the
promoted candidate (1 seat before, 0 after). -/
theorem spec_c9_cex :
    (crearReserva st9 1 4 now0).2 = CrearResult.ok rW4 ∧
    (cancelarReserva (crearReserva st9 1 4 now0).1 0 1 now0).2 =
      CancelResult.ok ∧
    getCuposDisponibles st9 cl4 = 1 ∧
    getCuposDisponibles
      (cancelarReserva (crearReserva st9 1 4 now0).1 0 1 now0).1 cl4 = 0 :=
  ⟨by decide, by decide, by decide, by decide⟩

/-- C9 amended: create followed by cancel of that reservation restores
seats_remaining, provided the session has no pending (not-yet-notified)
waitlist row and the member has no other cancelled row for the session (so
the cancellation can be persisted). -/
theorem spec_c9_amended (st st1 : Store) (sid cid : Nat) (now now2 : Int)
    (r : Reserva) (c : Clase)
    (hfresh : ∀ x ∈ st.reservas, x.id < st.nextReservaId)
    (hcr : crearReserva st sid cid now = (st1, CrearResult.ok r))
    (hfc : findClase st cid = some c)
    (hwin : now2 ≤ claseDatetime c - 120)
    (hwl : ∀ e ∈ st.listaEspera, e.claseId = c.id → e.notificado = true)
    (hnocanc : ∀ x ∈ st.reservas,
      ¬(x.socioId = sid ∧ x.claseId = c.id ∧
        x.estado = EstadoReserva.cancelada)) :
    (cancelarReserva st1 r.id sid now2).2 = CancelResult.ok ∧
    getCuposDisponibles (cancelarReserva st1 r.id sid now2).1 c =
      getCuposDisponibles st c := by
  rcases crearReserva_spec hcr with ⟨_, hne⟩ |
    ⟨u, c2, st2, hu, hc2, hv, hcup, hins, hst1, hres⟩
  · exact absurd rfl (hne r)
  · rw [hfc] at hc2
    injection hc2 with hc2e
    injection hres with hre
    obtain ⟨husr, hcl, hreslist, hwlst, hnext, _⟩ := insertReserva_ok hins
    rw [← hre] at hreslist
    have huid : u.id = sid := (findUsuario_mem hu).2
    have hcid : c.id = cid := (findClase_mem hfc).2
    have hrid : r.id = st.nextReservaId := by rw [hre]
    have hrcla : r.claseId = c.id := by rw [hre, ← hc2e]
    have hrsoc : r.socioId = sid := by rw [hre]; exact huid
    have hrest : r.estado = EstadoReserva.confirmada := by rw [hre]
    subst hst1
    have hlook : lookupReserva st1 r.id sid = some r := by
      unfold lookupReserva
      rw [hreslist, List.find?_append]
      have h1 : st.reservas.find?
          (fun x => x.id == r.id && x.socioId == sid) = none := by
        rw [List.find?_eq_none]
        intro x hx
        have := hfresh x hx
        simp only [Bool.and_eq_true, beq_iff_eq, not_and]
        intro hxid
        rw [hxid, hrid] at this
        exact absurd this (Nat.lt_irrefl _)
      rw [h1]
      simp only [Option.none_or]
      simp [List.find?, hrsoc]
    have hfc1 : findClase st1 r.claseId = some c := by
      rw [findClase_congr hcl, hrcla]
      unfold findClase
      unfold findClase at hfc
      rw [hcid]
      exact hfc
    have hpue : puedeCancelarse r c now2 = true := by
      unfold puedeCancelarse
      simp [hrest, hwin]
    have hguard : ∀ x ∈ st1.reservas,
        x.id ≠ (canceladaRow st1 r sid now2).id →
        ¬(x.socioId = (canceladaRow st1 r sid now2).socioId ∧
          x.claseId = (canceladaRow st1 r sid now2).claseId ∧
          x.estado = (canceladaRow st1 r sid now2).estado) := by
      intro x hx hxid
      rw [hreslist] at hx
      rcases List.mem_append.1 hx with hx | hx
      · rintro ⟨ha, hb, hcx⟩
        refine hnocanc x hx ⟨?_, ?_, ?_⟩
        · rw [ha]
          show r.socioId = sid
          exact hrsoc
        · rw [hb]
          show r.claseId = c.id
          exact hrcla
        · exact hcx
      · have : x = r := List.mem_singleton.1 hx
        rw [this, canceladaRow_id] at hxid
        exact absurd rfl hxid
    have hsave := saveReservaUpdate_ok_of hguard
    cases hcc : cancelarReserva st1 r.id sid now2 with
    | mk st' res =>
      dsimp only
      rcases cancelarReserva_spec hcc with ⟨hl2, hst, hres2⟩ |
        ⟨r2, hl2, hne2, hst, hres2⟩ | ⟨r2, hl2, he2, hcn, hst, hres2⟩ |
        ⟨r2, c3, hl2, he2, hc3, hpc2, hst, hres2⟩ |
        ⟨r2, c3, m, hl2, he2, hc3, hpc2, hsv, hst, hres2⟩ |
        ⟨r2, c3, st3, hl2, he2, hc3, hpc2, hsv, hst, hres2⟩
      · rw [hlook] at hl2
        cases hl2
      · rw [hlook] at hl2
        injection hl2 with h9
        exact absurd (h9.symm ▸ hrest) hne2
      · rw [hlook] at hl2
        injection hl2 with h9
        rw [← h9, hfc1] at hcn
        cases hcn
      · rw [hlook] at hl2
        injection hl2 with h9
        rw [← h9, hfc1] at hc3
        injection hc3 with h8
        rw [← h9, ← h8, hpue] at hpc2
        cases hpc2
      · rw [hlook] at hl2
        injection hl2 with h9
        rw [← h9, hsave] at hsv
        cases hsv
      · rw [hlook] at hl2
        injection hl2 with h9
        rw [← h9, hfc1] at hc3
        injection hc3 with h8
        rw [← h9, hsave] at hsv
        injection hsv with h7
        subst hres2
        refine ⟨rfl, ?_⟩
        subst hst
        have hlist3 : st3.listaEspera = st.listaEspera := by
          rw [← h7]
          show st1.listaEspera = st.listaEspera
          exact hwlst
        have hsel : selectSiguiente st3.listaEspera c3.id = none := by
          rw [hlist3, ← h8]
          exact selectSiguiente_none_of st.listaEspera c.id hwl
        rw [procesar_of_select_none now2 hsel]
        have hres3 : st3.reservas = st.reservas ++ [canceladaRow st1 r sid now2] := by
          rw [← h7]
          show (st1.reservas.map (fun x =>
            if x.id == (canceladaRow st1 r sid now2).id then
              canceladaRow st1 r sid now2 else x)) = _
          rw [hreslist, List.map_append]
          congr 1
          · refine map_id_of_mem _ _ ?_
            intro x hx
            rw [if_neg]
            intro hxid
            have hlt := hfresh x hx
            rw [canceladaRow_id] at hxid
            have : x.id = r.id := by simpa using hxid
            rw [this, hrid] at hlt
            exact absurd hlt (Nat.lt_irrefl _)
          · simp [canceladaRow_id]
        unfold getCuposDisponibles
        rw [reservasConfirmadasCount_append hres3 c.id]
        rw [if_neg]
        · simp
        · rintro ⟨_, hcx⟩
          rw [canceladaRow_estado] at hcx
          cases hcx

/-- C9 amended witness: on the fixture store with empty waitlist, booking
session 4 then cancelling restores the single seat. -/
theorem spec_c9_witness :
    (cancelarReserva stW4 rW4.id 1 now0).2 = CancelResult.ok ∧
    getCuposDisponibles (cancelarReserva stW4 rW4.id 1 now0).1 cl4 =
      getCuposDisponibles st0 cl4 :=
  spec_c9_amended st0 stW4 1 4 now0 now0 rW4 cl4 (by decide) (by decide)
    (by decide) (by decide) (by decide) (by decide)

end GymReservas

namespace GymReservas

/-- C10: the store enforces uniqueness of (member, session, status) triples —
the invariant is preserved by every operation sequence — and consequently,
when a member already has a cancelled row for a session, cancelling a second
re-booked reservation for that session cannot be persisted: the update raises
the uniqueness violation and the store is unchanged. -/
theorem spec_c10 :
    (∀ st ops, invUnique st → invUnique (runOps st ops)) ∧
    (∀ st rid sid now r c x, lookupReserva st rid sid = some r →
      r.estado = EstadoReserva.confirmada → findClase st r.claseId = some c →
      puedeCancelarse r c now = true →
      x ∈ st.reservas → x.id ≠ r.id → x.socioId = r.socioId →
      x.claseId = r.claseId → x.estado = EstadoReserva.cancelada →
      cancelarReserva st rid sid now =
        (st, CancelResult.raised
          "UNIQUE constraint failed: socio, clase, estado")) := by
  constructor
  · intro st ops h
    induction ops generalizing st with
    | nil => exact h
    | cons op rest ih =>
      simp only [runOps, List.foldl_cons]
      exact ih (applyOp st op) (invUnique_applyOp st op h)
  · intro st rid sid now r c x hl he hc hpc hx hxid hxsoc hxcla hxest
    have hsv : saveReservaUpdate st (canceladaRow st r sid now) =
        Except.error "UNIQUE constraint failed: socio, clase, estado" := by
      refine saveReservaUpdate_error_of x hx ?_ hxsoc hxcla ?_
      · rw [canceladaRow_id]
        exact hxid
      · rw [canceladaRow_estado]
        exact hxest
    cases hcc : cancelarReserva st rid sid now with
    | mk st' res =>
      rcases cancelarReserva_spec hcc with ⟨hl2, hst, hres2⟩ |
        ⟨r2, hl2, hne2, hst, hres2⟩ | ⟨r2, hl2, he2, hcn, hst, hres2⟩ |
        ⟨r2, c3, hl2, he2, hc3, hpc2, hst, hres2⟩ |
        ⟨r2, c3, m, hl2, he2, hc3, hpc2, hsv2, hst, hres2⟩ |
        ⟨r2, c3, st3, hl2, he2, hc3, hpc2, hsv2, hst, hres2⟩
      · rw [hl] at hl2
        cases hl2
      · rw [hl] at hl2
        injection hl2 with h9
        exact absurd (h9.symm ▸ he) hne2
      · rw [hl] at hl2
        injection hl2 with h9
        rw [← h9, hc] at hcn
        cases hcn
      · rw [hl] at hl2
        injection hl2 with h9
        rw [← h9, hc] at hc3
        injection hc3 with h8
        rw [← h9, ← h8, hpc] at hpc2
        cases hpc2
      · rw [hl] at hl2
        injection hl2 with h9
        rw [← h9, hsv] at hsv2
        injection hsv2 with h7
        rw [hst, hres2, ← h7]
      · rw [hl] at hl2
        injection hl2 with h9
        rw [← h9, hsv] at hsv2
        cases hsv2

/-- C10 witness: the uniqueness invariant after a concrete run, and the
concrete failing second cancellation in the re-booking store. -/
theorem spec_c10_witness :
    invUnique (runOps st0 opsC3) ∧
    cancelarReserva stRebook 1 1 now0 =
      (stRebook, CancelResult.raised
        "UNIQUE constraint failed: socio, clase, estado") :=
  ⟨spec_c10.1 st0 opsC3 (by decide),
   spec_c10.2 stRebook 1 1 now0 rRebook cl1
     ⟨0, 1, 1, EstadoReserva.cancelada, now0, some now0, 100⟩
     (by decide) (by decide) (by decide) (by decide) (by decide) (by decide)
     (by decide) (by decide) (by decide)⟩

end GymReservas
